import Mathlib

/-!
Shallow embedding of the event-scraper deduplication core
(src/deduplication.py and the pure part of src/pipeline.py),
with theorems settling the spec claims.

Strings are modelled by Lean `String`; character classes (`\s`, `\w`,
`str.lower`, `str.strip`) are modelled at ASCII fidelity, matching the
ASCII inputs the claims are about.
-/

namespace EventScraper

/-- ASCII model of Python's regex `\s` class (and of `str.strip`'s default
whitespace set): space, tab, newline, carriage return, vertical tab, form feed. -/
def isPySpace (c : Char) : Bool :=
  c == ' ' || c == '\t' || c == '\n' || c == '\r' || c == '\x0b' || c == '\x0c'

/-- ASCII model of Python's regex `\w` class: alphanumeric or underscore. -/
def isWordChar (c : Char) : Bool :=
  c.isAlphanum || c == '_'

/-- Model of Python `str.strip()`: drop leading and trailing whitespace. -/
def stripL (l : List Char) : List Char :=
  ((l.dropWhile isPySpace).reverse.dropWhile isPySpace).reverse

/-- Model of Python `str.strip()` on strings. -/
def pyStrip (s : String) : String :=
  String.mk (stripL s.toList)

/-- Model of `re.sub(r'\s+', ' ', text)`: every maximal run of whitespace
becomes a single space.  The boolean argument records whether the previous
character was part of a whitespace run. -/
def collapseWsAux : Bool → List Char → List Char
  | _, [] => []
  | prevWs, c :: cs =>
    if isPySpace c then
      if prevWs then collapseWsAux true cs
      else ' ' :: collapseWsAux true cs
    else c :: collapseWsAux false cs

/-- deduplication.normalize_text: lowercase, strip, collapse whitespace runs
to a single space, then remove every character that is neither a word
character nor whitespace. -/
def normalize_text (text : String) : String :=
  let l := (text.toList.map Char.toLower)
  let l := stripL l
  let l := collapseWsAux false l
  let l := l.filter (fun c => isWordChar c || isPySpace c)
  String.mk l

/-- deduplication.normalize_date: empty input gives empty output; otherwise
the first 10 characters of the stripped string. -/
def normalize_date (date_str : String) : String :=
  if date_str = "" then ""
  else String.mk ((stripL date_str.toList).take 10)

/-! SHA-256, modelling Python's `hashlib.sha256(...).hexdigest()` over the
UTF-8 encoding of the fingerprint string.  Words are `Nat` reduced mod 2^32. -/

/-- UTF-8 encoding of one character, as byte values. -/
def utf8Bytes (c : Char) : List Nat :=
  let n := c.toNat
  if n < 128 then [n]
  else if n < 2048 then [192 + n / 64, 128 + n % 64]
  else if n < 65536 then [224 + n / 4096, 128 + (n / 64) % 64, 128 + n % 64]
  else [240 + n / 262144, 128 + (n / 4096) % 64, 128 + (n / 64) % 64, 128 + n % 64]

/-- UTF-8 encoding of a string, as byte values. -/
def utf8Encode (s : String) : List Nat :=
  s.toList.flatMap utf8Bytes

/-- Big-endian bytes of a number, fixed width `k`. -/
def beBytes : Nat → Nat → List Nat
  | 0, _ => []
  | k + 1, n => beBytes k (n / 256) ++ [n % 256]

/-- SHA-256 message padding: append 0x80, zeros to 56 mod 64, then the
64-bit big-endian bit length. -/
def shaPad (msg : List Nat) : List Nat :=
  let l := msg.length
  let zeros := (119 - l % 64) % 64
  msg ++ [128] ++ List.replicate zeros 0 ++ beBytes 8 (8 * l)

/-- Group bytes into big-endian 32-bit words. -/
def toWords : List Nat → List Nat
  | b0 :: b1 :: b2 :: b3 :: rest => (((b0 * 256 + b1) * 256 + b2) * 256 + b3) :: toWords rest
  | _ => []

/-- Right rotation of a 32-bit word. -/
def rotr32 (n x : Nat) : Nat :=
  ((x >>> n) ||| (x <<< (32 - n))) % 4294967296

/-- SHA-256 small sigma 0. -/
def ssig0 (x : Nat) : Nat := rotr32 7 x ^^^ rotr32 18 x ^^^ (x >>> 3)

/-- SHA-256 small sigma 1. -/
def ssig1 (x : Nat) : Nat := rotr32 17 x ^^^ rotr32 19 x ^^^ (x >>> 10)

/-- Message-schedule extension: append `fuel` further words. -/
def extendWords (w : List Nat) : Nat → List Nat
  | 0 => w
  | fuel + 1 =>
    let n := w.length
    let x := (w.getD (n - 16) 0 + ssig0 (w.getD (n - 15) 0)
              + w.getD (n - 7) 0 + ssig1 (w.getD (n - 2) 0)) % 4294967296
    extendWords (w ++ [x]) fuel

/-- SHA-256 round constants (FIPS 180-4, in decimal). -/
def shaK : List Nat :=
  [1116352408, 1899447441, 3049323471, 3921009573, 961987163, 1508970993,
   2453635748, 2870763221, 3624381080, 310598401, 607225278, 1426881987,
   1925078388, 2162078206, 2614888103, 3248222580, 3835390401, 4022224774,
   264347078, 604807628, 770255983, 1249150122, 1555081692, 1996064986,
   2554220882, 2821834349, 2952996808, 3210313671, 3336571891, 3584528711,
   113926993, 338241895, 666307205, 773529912, 1294757372, 1396182291,
   1695183700, 1986661051, 2177026350, 2456956037, 2730485921, 2820302411,
   3259730800, 3345764771, 3516065817, 3600352804, 4094571909, 275423344,
   430227734, 506948616, 659060556, 883997877, 958139571, 1322822218,
   1537002063, 1747873779, 1955562222, 2024104815, 2227730452, 2361852424,
   2428436474, 2756734187, 3204031479, 3329325298]

/-- SHA-256 initial hash value (FIPS 180-4, in decimal). -/
def shaH0 : List Nat :=
  [1779033703, 3144134277, 1013904242, 2773480762,
   1359893119, 2600822924, 528734635, 1541459225]

/-- One SHA-256 compression round; the state is the list [a,b,c,d,e,f,g,h]. -/
def shaRound (st : List Nat) (wk : Nat × Nat) : List Nat :=
  match st with
  | [a, b, c, d, e, f, g, h] =>
    let s1 := rotr32 6 e ^^^ rotr32 11 e ^^^ rotr32 25 e
    let ch := (e &&& f) ^^^ ((e ^^^ 4294967295) &&& g)
    let t1 := (h + s1 + ch + wk.2 + wk.1) % 4294967296
    let s0 := rotr32 2 a ^^^ rotr32 13 a ^^^ rotr32 22 a
    let maj := (a &&& b) ^^^ (a &&& c) ^^^ (b &&& c)
    let t2 := (s0 + maj) % 4294967296
    [(t1 + t2) % 4294967296, a, b, c, (d + t1) % 4294967296, e, f, g]
  | other => other

/-- Pointwise modular addition of two word lists. -/
def addWords : List Nat → List Nat → List Nat
  | a :: as, b :: bs => (a + b) % 4294967296 :: addWords as bs
  | _, _ => []

/-- Compress one 64-byte block into the running hash value. -/
def shaCompress (h : List Nat) (block : List Nat) : List Nat :=
  let ws := extendWords (toWords block) 48
  addWords h ((ws.zip shaK).foldl shaRound h)

/-- Split a byte list into `n` blocks of 64 bytes. -/
def splitBlocks : Nat → List Nat → List (List Nat)
  | 0, _ => []
  | n + 1, l => l.take 64 :: splitBlocks n (l.drop 64)

/-- SHA-256 of a byte list, as eight 32-bit words. -/
def sha256Words (msg : List Nat) : List Nat :=
  let padded := shaPad msg
  (splitBlocks (padded.length / 64) padded).foldl shaCompress shaH0

/-- Lower-case hex digit for a value below 16. -/
def hexDigit (n : Nat) : Char :=
  if n < 10 then Char.ofNat (48 + n) else Char.ofNat (87 + n)

/-- Eight-hex-digit rendering of one 32-bit word, most significant first. -/
def hexWord (n : Nat) : List Char :=
  (List.range 8).map (fun i => hexDigit ((n >>> ((7 - i) * 4)) &&& 15))

/-- Model of `hashlib.sha256(bytes).hexdigest()`. -/
def sha256Hex (msg : List Nat) : String :=
  String.mk ((sha256Words msg).foldr (fun w acc => hexWord w ++ acc) [])

/-- deduplication.compute_content_hash: SHA-256 hex digest of the
pipe-joined normalized title, date and city. -/
def compute_content_hash (title start_date city : String) : String :=
  let fp := normalize_text title ++ "|" ++ normalize_date start_date ++ "|" ++ normalize_text city
  sha256Hex (utf8Encode fp)

/-! The match engine.  A candidate event is a Python dict; every field the
core reads is modelled as optional, `Option.getD` being `dict.get` with its
default.  Stored lightweight tuples always carry all three keys as strings
(see sheets.load_existing_events and the fold in pipeline.deduplicate_and_store),
so they are modelled with plain `String` fields. -/

structure Event where
  title : Option String
  start_date : Option String
  city : Option String
  source_id : Option String
  end_date : Option String
  country : Option String
  platform : Option String
  url : Option String
  category : Option String
  price : Option String
  is_free : Option Bool
  organizer : Option String
  description : Option String
  attendee_count : Option String
  image_url : Option String
deriving DecidableEq, Repr

/-- Build an event from the four fields the match engine reads, every other
field missing. -/
def mkEvent (t d c sid : Option String) : Event :=
  ⟨t, d, c, sid, none, none, none, none, none, none, none, none, none, none, none⟩

/-- Lightweight stored tuple {title, start_date, city} used by the fuzzy layer. -/
structure ExistingEvent where
  title : String
  start_date : String
  city : String
deriving DecidableEq, Repr

/-- Layer 3 scan of deduplication.is_duplicate: iterate the stored tuples in
order; for each one passing the same-date, same-city, non-empty-date gate,
score the titles and return on the first score at or above the threshold.
The external `rapidfuzz.fuzz.token_sort_ratio` primitive is a parameter. -/
def fuzzyScan (fuzz : String → String → Nat)
    (new_title_norm new_date_norm new_city_norm : String)
    (fuzzy_threshold : Nat) : List ExistingEvent → Bool × String
  | [] => (false, "")
  | existing :: rest =>
    if normalize_date existing.start_date = new_date_norm ∧
       normalize_text existing.city = new_city_norm ∧
       new_date_norm ≠ "" then
      let similarity := fuzz new_title_norm (normalize_text existing.title)
      if fuzzy_threshold ≤ similarity then
        (true, "fuzzy_match_" ++ toString similarity ++ "pct")
      else fuzzyScan fuzz new_title_norm new_date_norm new_city_norm fuzzy_threshold rest
    else fuzzyScan fuzz new_title_norm new_date_norm new_city_norm fuzzy_threshold rest

/-- deduplication.is_duplicate: the three-layer decision.  Layer 1 matches a
non-empty stripped source_id against the known set; layer 2 matches the
content hash; layer 3 is the gated fuzzy scan. -/
def is_duplicate (fuzz : String → String → Nat) (event : Event)
    (existing_source_ids : List String) (existing_hashes : List String)
    (existing_events : List ExistingEvent) (fuzzy_threshold : Nat) : Bool × String :=
  let source_id := pyStrip (event.source_id.getD "")
  if source_id ≠ "" ∧ source_id ∈ existing_source_ids then
    (true, "exact_source_id")
  else
    let content_hash := compute_content_hash (event.title.getD "")
      (event.start_date.getD "") (event.city.getD "")
    if content_hash ∈ existing_hashes then
      (true, "content_hash")
    else
      fuzzyScan fuzz (normalize_text (event.title.getD ""))
        (normalize_date (event.start_date.getD ""))
        (normalize_text (event.city.getD ""))
        fuzzy_threshold existing_events

/-! The orchestrator (pipeline.deduplicate_and_store), with the spreadsheet
I/O replaced by an explicit initial index and an explicit result.  Python
sets are modelled as lists observed only through membership, `set.add` as
`List.insert`.  A batch element is `Option Event`: `some e` is an ordinary
candidate dict, `none` models a candidate whose processing raises inside
the per-candidate try block (e.g. a non-dict element, whose first attribute
access throws), which the orchestrator catches and tallies under errors. -/

/-- Model of Python's `needle in haystack` substring test on lists. -/
def startsWithL : List Char → List Char → Bool
  | [], _ => true
  | _ :: _, [] => false
  | a :: as, b :: bs => a == b && startsWithL as bs

/-- Model of Python's `needle in haystack` substring test. -/
def containsL (needle hay : List Char) : Bool :=
  match hay with
  | [] => startsWithL needle []
  | _ :: rest => startsWithL needle hay || containsL needle rest

/-- Model of Python's `sub in s` on strings. -/
def pyIn (needle hay : String) : Bool :=
  containsL needle.toList hay.toList

/-- sheets.EVENTS_HEADERS: the fixed column order of the events sheet. -/
def EVENTS_HEADERS : List String :=
  ["content_hash", "title", "start_date", "end_date", "city",
   "country", "platform", "source_id", "url", "category",
   "price", "is_free", "organizer", "description",
   "attendee_count", "image_url", "scraped_at", "is_active"]

/-- deduplication.prepare_event_row: build the sheet row for an event in
EVENTS_HEADERS order.  `datetime.now().isoformat()` is the `now` parameter. -/
def prepare_event_row (now : String) (event : Event) : List String :=
  let content_hash := compute_content_hash (event.title.getD "")
    (event.start_date.getD "") (event.city.getD "")
  let event_data : List (String × String) :=
    [("content_hash", content_hash),
     ("title", event.title.getD ""),
     ("start_date", event.start_date.getD ""),
     ("end_date", event.end_date.getD ""),
     ("city", event.city.getD ""),
     ("country", event.country.getD "India"),
     ("platform", event.platform.getD ""),
     ("source_id", event.source_id.getD ""),
     ("url", event.url.getD ""),
     ("category", event.category.getD ""),
     ("price", event.price.getD "Free"),
     ("is_free", if event.is_free.getD true then "TRUE" else "FALSE"),
     ("organizer", event.organizer.getD ""),
     ("description", String.mk ((event.description.getD "").toList.take 500)),
     ("attendee_count", event.attendee_count.getD ""),
     ("image_url", event.image_url.getD ""),
     ("scraped_at", now),
     ("is_active", "TRUE")]
  EVENTS_HEADERS.map (fun h => (((event_data.find? (fun p => p.1 == h)).map Prod.snd).getD ""))

/-- The in-memory match index: known source ids, known content hashes, and
the ordered lightweight tuples for the fuzzy layer. -/
structure MatchIndex where
  source_ids : List String
  content_hashes : List String
  events_list : List ExistingEvent
deriving DecidableEq, Repr

/-- The run counters of pipeline.deduplicate_and_store. -/
structure RunStats where
  new : Nat
  dup_exact : Nat
  dup_hash : Nat
  dup_fuzzy : Nat
  errors : Nat
deriving DecidableEq, Repr

/-- Working state of one deduplication pass: index, counters, accepted rows. -/
structure RunState where
  index : MatchIndex
  stats : RunStats
  new_rows : List (List String)
deriving DecidableEq, Repr

/-- Counter update for a duplicate, following the orchestrator's substring
dispatch: `"source_id" in reason`, then `"hash" in reason`, else fuzzy. -/
def classifyDup (s : RunStats) (reason : String) : RunStats :=
  if pyIn "source_id" reason then ⟨s.new, s.dup_exact + 1, s.dup_hash, s.dup_fuzzy, s.errors⟩
  else if pyIn "hash" reason then ⟨s.new, s.dup_exact, s.dup_hash + 1, s.dup_fuzzy, s.errors⟩
  else ⟨s.new, s.dup_exact, s.dup_hash, s.dup_fuzzy + 1, s.errors⟩

/-- One iteration of the orchestrator loop: classify, then either tally the
duplicate, or append the prepared row and fold the candidate into the index
(`str(source_id)` added unconditionally and unstripped, hash added, tuple
appended).  A raising candidate only bumps the errors counter. -/
def processEvent (fuzz : String → String → Nat) (now : String)
    (st : RunState) (cand : Option Event) : RunState :=
  match cand with
  | none =>
    ⟨st.index, ⟨st.stats.new, st.stats.dup_exact, st.stats.dup_hash,
      st.stats.dup_fuzzy, st.stats.errors + 1⟩, st.new_rows⟩
  | some event =>
    match is_duplicate fuzz event st.index.source_ids st.index.content_hashes
      st.index.events_list 85 with
    | (true, reason) => ⟨st.index, classifyDup st.stats reason, st.new_rows⟩
    | (false, _) =>
      let row := prepare_event_row now event
      let content_hash := compute_content_hash (event.title.getD "")
        (event.start_date.getD "") (event.city.getD "")
      ⟨⟨st.index.source_ids.insert (event.source_id.getD ""),
        st.index.content_hashes.insert content_hash,
        st.index.events_list ++ [⟨event.title.getD "", event.start_date.getD "",
          event.city.getD ""⟩]⟩,
       ⟨st.stats.new + 1, st.stats.dup_exact, st.stats.dup_hash,
        st.stats.dup_fuzzy, st.stats.errors⟩,
       st.new_rows ++ [row]⟩

/-- pipeline.deduplicate_and_store, pure core: stream the batch through the
match engine in input order, folding accepted candidates into the index
before the next candidate is classified. -/
def deduplicate_and_store (fuzz : String → String → Nat) (now : String)
    (all_events : List (Option Event)) (existing : MatchIndex) : RunState :=
  all_events.foldl (processEvent fuzz now) ⟨existing, ⟨0, 0, 0, 0, 0⟩, []⟩

/-- The empty initial index. -/
def emptyIndex : MatchIndex := ⟨[], [], []⟩

/-- The gate of the fuzzy layer: the stored tuple's normalized date and city
agree with the candidate's, and the candidate's normalized date is non-empty. -/
abbrev fuzzyGate (new_date_norm new_city_norm : String) (ex : ExistingEvent) : Prop :=
  normalize_date ex.start_date = new_date_norm ∧
  normalize_text ex.city = new_city_norm ∧
  new_date_norm ≠ ""

/-! Helper lemmas about the engine, shared by several claims' theorems. -/

theorem fuzzyScan_all_below (fuzz : String → String → Nat) (t d c : String) (T : Nat)
    (l : List ExistingEvent)
    (h : ∀ ex ∈ l, fuzzyGate d c ex → fuzz t (normalize_text ex.title) < T) :
    fuzzyScan fuzz t d c T l = (false, "") := by
  induction l with
  | nil => rfl
  | cons x xs ih =>
    rw [fuzzyScan]
    split
    · next hg =>
      rw [if_neg (by have := h x (List.mem_cons_self x xs) hg; omega)]
      exact ih fun e he hge => h e (List.mem_cons_of_mem _ he) hge
    · exact ih fun e he hge => h e (List.mem_cons_of_mem _ he) hge

theorem fuzzyScan_hits_first (fuzz : String → String → Nat) (t d c : String) (T : Nat)
    (l1 l2 : List ExistingEvent) (e : ExistingEvent)
    (h1 : ∀ ex ∈ l1, ¬(fuzzyGate d c ex ∧ T ≤ fuzz t (normalize_text ex.title)))
    (hg : fuzzyGate d c e) (hs : T ≤ fuzz t (normalize_text e.title)) :
    fuzzyScan fuzz t d c T (l1 ++ e :: l2)
      = (true, "fuzzy_match_" ++ toString (fuzz t (normalize_text e.title)) ++ "pct") := by
  induction l1 with
  | nil => rw [List.nil_append, fuzzyScan, if_pos hg, if_pos hs]
  | cons x xs ih =>
    rw [List.cons_append, fuzzyScan]
    split
    · next hgx =>
      rw [if_neg (by
        intro hsx
        exact h1 x (List.mem_cons_self x xs) ⟨hgx, hsx⟩)]
      exact ih fun ex he => h1 ex (List.mem_cons_of_mem _ he)
    · exact ih fun ex he => h1 ex (List.mem_cons_of_mem _ he)

theorem fuzzyScan_exists_hit (fuzz : String → String → Nat) (t d c : String) (T : Nat)
    (l : List ExistingEvent)
    (h : ∃ ex ∈ l, fuzzyGate d c ex ∧ T ≤ fuzz t (normalize_text ex.title)) :
    ∃ s, T ≤ s ∧ fuzzyScan fuzz t d c T l = (true, "fuzzy_match_" ++ toString s ++ "pct") := by
  induction l with
  | nil => exact absurd h (by simp)
  | cons x xs ih =>
    rw [fuzzyScan]
    by_cases hgx : fuzzyGate d c x
    · rw [if_pos hgx]
      by_cases hsx : T ≤ fuzz t (normalize_text x.title)
      · exact ⟨fuzz t (normalize_text x.title), hsx, by rw [if_pos hsx]⟩
      · rw [if_neg hsx]
        apply ih
        rcases h with ⟨ex, hmem, hge, hse⟩
        rcases List.mem_cons.mp hmem with rfl | hxs
        · exact absurd hse hsx
        · exact ⟨ex, hxs, hge, hse⟩
    · rw [if_neg hgx]
      apply ih
      rcases h with ⟨ex, hmem, hge, hse⟩
      rcases List.mem_cons.mp hmem with rfl | hxs
      · exact absurd hge hgx
      · exact ⟨ex, hxs, hge, hse⟩

theorem is_duplicate_layer3 (fuzz : String → String → Nat) (event : Event)
    (ids hashes : List String) (evs : List ExistingEvent) (T : Nat)
    (h1 : ¬(pyStrip (event.source_id.getD "") ≠ "" ∧
            pyStrip (event.source_id.getD "") ∈ ids))
    (h2 : compute_content_hash (event.title.getD "") (event.start_date.getD "")
            (event.city.getD "") ∉ hashes) :
    is_duplicate fuzz event ids hashes evs T
      = fuzzyScan fuzz (normalize_text (event.title.getD ""))
          (normalize_date (event.start_date.getD ""))
          (normalize_text (event.city.getD "")) T evs := by
  rw [is_duplicate, if_neg h1, if_neg h2]

theorem is_duplicate_empty_index (fuzz : String → String → Nat) (event : Event) (T : Nat) :
    is_duplicate fuzz event [] [] [] T = (false, "") := by
  rw [is_duplicate_layer3]
  · rfl
  · simp
  · simp

/-- C2: when the candidate's trimmed source_id is non-empty and already known,
the engine answers Duplicate(exact_source_id), whatever the hash set, the
stored tuples and the similarity function would say: the exact source-id layer
is evaluated first and the first matching layer wins. -/
theorem layer_priority_exact_source_id (fuzz : String → String → Nat) (event : Event)
    (ids hashes : List String) (evs : List ExistingEvent) (T : Nat)
    (h1 : pyStrip (event.source_id.getD "") ≠ "")
    (h2 : pyStrip (event.source_id.getD "") ∈ ids) :
    is_duplicate fuzz event ids hashes evs T = (true, "exact_source_id") := by
  rw [is_duplicate, if_pos ⟨h1, h2⟩]

/-- Witness for C2: a candidate whose source_id and content data are both
already indexed is still reported as exact_source_id. -/
theorem layer_priority_exact_source_id_witness :
    is_duplicate (fun _ _ => 100)
      (mkEvent (some "AI Summit") (some "2025-06-01") (some "Pune") (some "eb_1"))
      ["eb_1"]
      [compute_content_hash "AI Summit" "2025-06-01" "Pune"]
      [⟨"AI Summit", "2025-06-01", "Pune"⟩] 85 = (true, "exact_source_id") :=
  layer_priority_exact_source_id _ _ _ _ _ _ (by decide) (by decide)

/-- C3: compute_content_hash is deterministic, depends only on the normalized
forms of its three arguments, and in particular identifies the spec's
"Jazz  Night"/"jazz night" example pair. -/
theorem fingerprint_deterministic_and_invariant :
    (∀ t d c, compute_content_hash t d c = compute_content_hash t d c) ∧
    (∀ t₁ d₁ c₁ t₂ d₂ c₂, normalize_text t₁ = normalize_text t₂ →
      normalize_date d₁ = normalize_date d₂ → normalize_text c₁ = normalize_text c₂ →
      compute_content_hash t₁ d₁ c₁ = compute_content_hash t₂ d₂ c₂) ∧
    compute_content_hash "Jazz  Night" "2025-03-01T18:00" "Mumbai"
      = compute_content_hash "jazz night" "2025-03-01" "MUMBAI" := by
  have key : ∀ t₁ d₁ c₁ t₂ d₂ c₂, normalize_text t₁ = normalize_text t₂ →
      normalize_date d₁ = normalize_date d₂ → normalize_text c₁ = normalize_text c₂ →
      compute_content_hash t₁ d₁ c₁ = compute_content_hash t₂ d₂ c₂ := by
    intro t₁ d₁ c₁ t₂ d₂ c₂ h1 h2 h3
    rw [compute_content_hash, compute_content_hash, h1, h2, h3]
  exact ⟨fun _ _ _ => rfl, key, key _ _ _ _ _ _ (by decide) (by decide) (by decide)⟩

/-- Witness for C3: the normalization-invariance component applied at a fresh
concrete input pair. -/
theorem fingerprint_deterministic_and_invariant_witness :
    compute_content_hash "Rock  Fest" "2025-07-04T20:00" " Delhi"
      = compute_content_hash "rock fest" "2025-07-04" "DELHI" :=
  fingerprint_deterministic_and_invariant.2.1 _ _ _ _ _ _ (by decide) (by decide) (by decide)

/-- Counterexample for C4: the code's gate tests only the candidate's
normalized date for non-emptiness, not the city.  A candidate with an empty
normalized city fuzzy-matches a stored tuple whose city also normalizes to
empty, contradicting the claim that an empty normalized city can never be
classified as a fuzzy duplicate. -/
theorem fuzzy_gate_counterexample :
    is_duplicate (fun _ _ => 100)
      (mkEvent (some "rock show") (some "2025-01-01") (some "") none)
      [] [] [⟨"rock show", "2025-01-01", ""⟩] 85
      = (true, "fuzzy_match_100pct") ∧
    normalize_text "" = "" := by decide

/-- C4 amended: the fuzzy layer compares a candidate against a stored tuple
only when the normalized dates agree, the normalized cities agree, and the
candidate's normalized date is non-empty (the city may be empty).  Hence a
candidate with an empty normalized date is never a fuzzy duplicate, and
stored records whose normalized city differs from the candidate's never
produce a fuzzy match, regardless of similarity score. -/
theorem fuzzy_gate_amended (fuzz : String → String → Nat) (event : Event)
    (ids hashes : List String) (evs : List ExistingEvent) (T : Nat) :
    (normalize_date (event.start_date.getD "") = "" →
      is_duplicate fuzz event ids hashes evs T = (true, "exact_source_id") ∨
      is_duplicate fuzz event ids hashes evs T = (true, "content_hash") ∨
      is_duplicate fuzz event ids hashes evs T = (false, "")) ∧
    ((∀ ex ∈ evs, normalize_text ex.city ≠ normalize_text (event.city.getD "")) →
      is_duplicate fuzz event ids hashes evs T = (true, "exact_source_id") ∨
      is_duplicate fuzz event ids hashes evs T = (true, "content_hash") ∨
      is_duplicate fuzz event ids hashes evs T = (false, "")) := by
  have cases3 : ∀ hscan : fuzzyScan fuzz (normalize_text (event.title.getD ""))
        (normalize_date (event.start_date.getD ""))
        (normalize_text (event.city.getD "")) T evs = (false, ""),
      is_duplicate fuzz event ids hashes evs T = (true, "exact_source_id") ∨
      is_duplicate fuzz event ids hashes evs T = (true, "content_hash") ∨
      is_duplicate fuzz event ids hashes evs T = (false, "") := by
    intro hscan
    simp only [is_duplicate]
    split
    · exact Or.inl rfl
    · split
      · exact Or.inr (Or.inl rfl)
      · exact Or.inr (Or.inr hscan)
  constructor
  · intro hdate
    exact cases3 (fuzzyScan_all_below _ _ _ _ _ _
      fun ex _ hg => absurd hdate hg.2.2)
  · intro hcity
    exact cases3 (fuzzyScan_all_below _ _ _ _ _ _
      fun ex hmem hg => absurd hg.2.1 (hcity ex hmem))

/-- Witness for C4 amended: both components applied at concrete inputs, one
with an empty date, one with disagreeing cities. -/
theorem fuzzy_gate_amended_witness :
    (is_duplicate (fun _ _ => 100)
        (mkEvent (some "rock show") none (some "pune") none)
        [] [] [⟨"rock show", "", "pune"⟩] 85 = (true, "exact_source_id") ∨
     is_duplicate (fun _ _ => 100)
        (mkEvent (some "rock show") none (some "pune") none)
        [] [] [⟨"rock show", "", "pune"⟩] 85 = (true, "content_hash") ∨
     is_duplicate (fun _ _ => 100)
        (mkEvent (some "rock show") none (some "pune") none)
        [] [] [⟨"rock show", "", "pune"⟩] 85 = (false, "")) ∧
    (is_duplicate (fun _ _ => 100)
        (mkEvent (some "rock show") (some "2025-01-01") (some "mumbai") none)
        [] [] [⟨"rock show", "2025-01-01", "pune"⟩] 85 = (true, "exact_source_id") ∨
     is_duplicate (fun _ _ => 100)
        (mkEvent (some "rock show") (some "2025-01-01") (some "mumbai") none)
        [] [] [⟨"rock show", "2025-01-01", "pune"⟩] 85 = (true, "content_hash") ∨
     is_duplicate (fun _ _ => 100)
        (mkEvent (some "rock show") (some "2025-01-01") (some "mumbai") none)
        [] [] [⟨"rock show", "2025-01-01", "pune"⟩] 85 = (false, "")) :=
  ⟨(fuzzy_gate_amended _ _ _ _ _ _).1 (by decide),
   (fuzzy_gate_amended _ _ _ _ _ _).2 (by decide)⟩

/-- C6: for a candidate that reaches the fuzzy layer, a gated comparison
scoring exactly the threshold T yields a fuzzy duplicate (the reported score
being at or above T), while a batch in which every gated comparison scores
strictly below T yields no match at all. -/
theorem threshold_boundary (fuzz : String → String → Nat) (event : Event)
    (ids hashes : List String) (evs : List ExistingEvent) (T : Nat)
    (h1 : ¬(pyStrip (event.source_id.getD "") ≠ "" ∧
            pyStrip (event.source_id.getD "") ∈ ids))
    (h2 : compute_content_hash (event.title.getD "") (event.start_date.getD "")
            (event.city.getD "") ∉ hashes) :
    ((∃ ex ∈ evs, fuzzyGate (normalize_date (event.start_date.getD ""))
          (normalize_text (event.city.getD "")) ex ∧
        fuzz (normalize_text (event.title.getD "")) (normalize_text ex.title) = T) →
      ∃ s, T ≤ s ∧ is_duplicate fuzz event ids hashes evs T
        = (true, "fuzzy_match_" ++ toString s ++ "pct")) ∧
    ((∀ ex ∈ evs, fuzzyGate (normalize_date (event.start_date.getD ""))
          (normalize_text (event.city.getD "")) ex →
        fuzz (normalize_text (event.title.getD "")) (normalize_text ex.title) < T) →
      is_duplicate fuzz event ids hashes evs T = (false, "")) := by
  rw [is_duplicate_layer3 fuzz event ids hashes evs T h1 h2]
  constructor
  · intro hex
    apply fuzzyScan_exists_hit
    rcases hex with ⟨ex, hmem, hg, hsc⟩
    exact ⟨ex, hmem, hg, le_of_eq hsc.symm⟩
  · exact fuzzyScan_all_below _ _ _ _ _ _

/-- Witness for C6: with threshold 85, an 85-scoring comparison matches and
an 84-scoring one does not. -/
theorem threshold_boundary_witness :
    (∃ s, 85 ≤ s ∧ is_duplicate (fun _ _ => 85)
        (mkEvent (some "ai summit") (some "2025-01-01") (some "pune") none)
        [] [] [⟨"x", "2025-01-01", "pune"⟩] 85
        = (true, "fuzzy_match_" ++ toString s ++ "pct")) ∧
    is_duplicate (fun _ _ => 84)
        (mkEvent (some "ai summit") (some "2025-01-01") (some "pune") none)
        [] [] [⟨"x", "2025-01-01", "pune"⟩] 85 = (false, "") :=
  ⟨(threshold_boundary _ _ _ _ _ _ (by decide) (by decide)).1
      ⟨⟨"x", "2025-01-01", "pune"⟩, by decide, by decide, rfl⟩,
   (threshold_boundary _ _ _ _ _ _ (by decide) (by decide)).2
      (fun _ _ _ => by decide)⟩

/-- C7: among the stored tuples, the first one (in index order) that passes
the gate and meets the threshold decides the outcome and supplies the reported
score, even if a later tuple scores higher. -/
theorem first_over_threshold_wins (fuzz : String → String → Nat) (event : Event)
    (ids hashes : List String) (T : Nat) (l1 l2 : List ExistingEvent) (e : ExistingEvent)
    (h1 : ¬(pyStrip (event.source_id.getD "") ≠ "" ∧
            pyStrip (event.source_id.getD "") ∈ ids))
    (h2 : compute_content_hash (event.title.getD "") (event.start_date.getD "")
            (event.city.getD "") ∉ hashes)
    (hfirst : ∀ ex ∈ l1, ¬(fuzzyGate (normalize_date (event.start_date.getD ""))
          (normalize_text (event.city.getD "")) ex ∧
        T ≤ fuzz (normalize_text (event.title.getD "")) (normalize_text ex.title)))
    (hg : fuzzyGate (normalize_date (event.start_date.getD ""))
          (normalize_text (event.city.getD "")) e)
    (hs : T ≤ fuzz (normalize_text (event.title.getD "")) (normalize_text e.title)) :
    is_duplicate fuzz event ids hashes (l1 ++ e :: l2) T
      = (true, "fuzzy_match_"
          ++ toString (fuzz (normalize_text (event.title.getD "")) (normalize_text e.title))
          ++ "pct") := by
  rw [is_duplicate_layer3 fuzz event ids hashes (l1 ++ e :: l2) T h1 h2]
  exact fuzzyScan_hits_first _ _ _ _ _ _ _ _ hfirst hg hs

/-- Witness for C7: the first gated tuple at or over the threshold scores 85
and is reported, although a later tuple scores 99. -/
theorem first_over_threshold_wins_witness :
    is_duplicate (fun _ t => if t = "ax" then 85 else if t = "ay" then 99 else 84)
      (mkEvent (some "ai summit") (some "2025-01-01") (some "pune") none) [] []
      ([⟨"ab", "2025-01-01", "pune"⟩] ++ ⟨"ax", "2025-01-01", "pune"⟩ ::
        [⟨"ay", "2025-01-01", "pune"⟩]) 85
      = (true, "fuzzy_match_85pct") := by
  have h := first_over_threshold_wins
    (fun _ t => if t = "ax" then 85 else if t = "ay" then 99 else 84)
    (mkEvent (some "ai summit") (some "2025-01-01") (some "pune") none) [] [] 85
    [⟨"ab", "2025-01-01", "pune"⟩] [⟨"ay", "2025-01-01", "pune"⟩]
    ⟨"ax", "2025-01-01", "pune"⟩
    (by decide) (by decide) (by decide) (by decide) (by decide)
  exact h

theorem processEvent_dup (fuzz : String → String → Nat) (now : String)
    (st : RunState) (e : Event) (reason : String)
    (h : is_duplicate fuzz e st.index.source_ids st.index.content_hashes
          st.index.events_list 85 = (true, reason)) :
    processEvent fuzz now st (some e) = ⟨st.index, classifyDup st.stats reason, st.new_rows⟩ := by
  rw [processEvent, h]

theorem processEvent_unique (fuzz : String → String → Nat) (now : String)
    (st : RunState) (e : Event) (r : String)
    (h : is_duplicate fuzz e st.index.source_ids st.index.content_hashes
          st.index.events_list 85 = (false, r)) :
    processEvent fuzz now st (some e)
      = ⟨⟨st.index.source_ids.insert (e.source_id.getD ""),
          st.index.content_hashes.insert (compute_content_hash (e.title.getD "")
            (e.start_date.getD "") (e.city.getD "")),
          st.index.events_list ++ [⟨e.title.getD "", e.start_date.getD "", e.city.getD ""⟩]⟩,
         ⟨st.stats.new + 1, st.stats.dup_exact, st.stats.dup_hash,
          st.stats.dup_fuzzy, st.stats.errors⟩,
         st.new_rows ++ [prepare_event_row now e]⟩ := by
  rw [processEvent, h]

/-- Counterexample for C1: two candidates with identical title, date and city
and different, non-empty source ids ("x" and " x").  The second one trims to
"x", which the fold added to the source-id set, so layer 1 fires: the second
candidate is counted as an exact_source_id duplicate, not as the
content_hash duplicate the claim promises. -/
theorem batch_self_dedup_counterexample :
    ("x" : String) ≠ " x" ∧ ("x" : String) ≠ "" ∧ (" x" : String) ≠ "" ∧
    (deduplicate_and_store (fun _ _ => 0) "2025-06-01T00:00:00"
      [some (mkEvent (some "AI Summit") (some "2025-06-01") (some "Pune") (some "x")),
       some (mkEvent (some "AI Summit") (some "2025-06-01") (some "Pune") (some " x"))]
      emptyIndex).stats = ⟨1, 1, 0, 0, 0⟩ := by decide

/-- C1 amended: batch self-dedup via the incremental fold, for two
structurally identical candidates with different non-empty source ids whose
second id, once trimmed, also differs from the first id as stored: the first
is Unique and accepted, the second is Duplicate(content_hash), because the
accepted hash was folded into the in-memory index before the second candidate
was classified. -/
theorem batch_self_dedup_amended (fuzz : String → String → Nat) (now : String)
    (e1 e2 : Event)
    (ht : e1.title = e2.title) (hd : e1.start_date = e2.start_date)
    (hc : e1.city = e2.city)
    (hs1 : e1.source_id.getD "" ≠ "") (hs2 : e2.source_id.getD "" ≠ "")
    (hdiff : e1.source_id.getD "" ≠ e2.source_id.getD "")
    (htrim : pyStrip (e2.source_id.getD "") ≠ e1.source_id.getD "") :
    is_duplicate fuzz e1 [] [] [] 85 = (false, "") ∧
    is_duplicate fuzz e2
      ((deduplicate_and_store fuzz now [some e1] emptyIndex).index.source_ids)
      ((deduplicate_and_store fuzz now [some e1] emptyIndex).index.content_hashes)
      ((deduplicate_and_store fuzz now [some e1] emptyIndex).index.events_list)
      85 = (true, "content_hash") ∧
    (deduplicate_and_store fuzz now [some e1, some e2] emptyIndex).stats
      = ⟨1, 0, 1, 0, 0⟩ := by
  have hfirst : is_duplicate fuzz e1 [] [] [] 85 = (false, "") :=
    is_duplicate_empty_index fuzz e1 85
  have hstep1 : deduplicate_and_store fuzz now [some e1] emptyIndex
      = ⟨⟨[e1.source_id.getD ""],
          [compute_content_hash (e1.title.getD "") (e1.start_date.getD "") (e1.city.getD "")],
          [⟨e1.title.getD "", e1.start_date.getD "", e1.city.getD ""⟩]⟩,
         ⟨1, 0, 0, 0, 0⟩,
         [prepare_event_row now e1]⟩ := by
    show List.foldl (processEvent fuzz now) ⟨emptyIndex, ⟨0, 0, 0, 0, 0⟩, []⟩ [some e1] = _
    rw [List.foldl_cons, List.foldl_nil,
      processEvent_unique fuzz now ⟨emptyIndex, ⟨0, 0, 0, 0, 0⟩, []⟩ e1 "" hfirst]
    rfl
  have hsecond : is_duplicate fuzz e2
      [e1.source_id.getD ""]
      [compute_content_hash (e1.title.getD "") (e1.start_date.getD "") (e1.city.getD "")]
      [⟨e1.title.getD "", e1.start_date.getD "", e1.city.getD ""⟩]
      85 = (true, "content_hash") := by
    have hhash : compute_content_hash (e2.title.getD "") (e2.start_date.getD "")
        (e2.city.getD "") = compute_content_hash (e1.title.getD "") (e1.start_date.getD "")
        (e1.city.getD "") := by rw [ht, hd, hc]
    rw [is_duplicate, if_neg, if_pos]
    · rw [hhash]; exact List.mem_singleton.mpr rfl
    · rintro ⟨-, hmem⟩
      exact htrim (List.mem_singleton.mp hmem)
  refine ⟨hfirst, by rw [hstep1]; exact hsecond, ?_⟩
  show (List.foldl (processEvent fuzz now) ⟨emptyIndex, ⟨0, 0, 0, 0, 0⟩, []⟩
    [some e1, some e2]).stats = _
  rw [List.foldl_cons]
  have he1 : processEvent fuzz now ⟨emptyIndex, ⟨0, 0, 0, 0, 0⟩, []⟩ (some e1)
      = deduplicate_and_store fuzz now [some e1] emptyIndex := by
    show _ = List.foldl (processEvent fuzz now) ⟨emptyIndex, ⟨0, 0, 0, 0, 0⟩, []⟩ [some e1]
    rw [List.foldl_cons, List.foldl_nil]
  rw [he1, hstep1, List.foldl_cons, List.foldl_nil,
    processEvent_dup fuzz now _ e2 "content_hash" hsecond]
  rfl

/-- Witness for C1 amended: the concrete Eventbrite/Meetup pair of the spec's
scenario, same event data with source ids "eb_1" and "mu_7". -/
theorem batch_self_dedup_amended_witness :
    is_duplicate (fun _ _ => 0)
      (mkEvent (some "AI Summit 2025") (some "2025-06-01") (some "Pune") (some "eb_1"))
      [] [] [] 85 = (false, "") ∧
    is_duplicate (fun _ _ => 0)
      (mkEvent (some "AI Summit 2025") (some "2025-06-01") (some "Pune") (some "mu_7"))
      ((deduplicate_and_store (fun _ _ => 0) "2025-06-01T00:00:00"
        [some (mkEvent (some "AI Summit 2025") (some "2025-06-01") (some "Pune") (some "eb_1"))]
        emptyIndex).index.source_ids)
      ((deduplicate_and_store (fun _ _ => 0) "2025-06-01T00:00:00"
        [some (mkEvent (some "AI Summit 2025") (some "2025-06-01") (some "Pune") (some "eb_1"))]
        emptyIndex).index.content_hashes)
      ((deduplicate_and_store (fun _ _ => 0) "2025-06-01T00:00:00"
        [some (mkEvent (some "AI Summit 2025") (some "2025-06-01") (some "Pune") (some "eb_1"))]
        emptyIndex).index.events_list)
      85 = (true, "content_hash") ∧
    (deduplicate_and_store (fun _ _ => 0) "2025-06-01T00:00:00"
      [some (mkEvent (some "AI Summit 2025") (some "2025-06-01") (some "Pune") (some "eb_1")),
       some (mkEvent (some "AI Summit 2025") (some "2025-06-01") (some "Pune") (some "mu_7"))]
      emptyIndex).stats = ⟨1, 0, 1, 0, 0⟩ :=
  batch_self_dedup_amended (fun _ _ => 0) "2025-06-01T00:00:00" _ _
    (by decide) (by decide) (by decide) (by decide) (by decide) (by decide) (by decide)

/-! Character-level facts used for the normalizer claim. -/

theorem toNat_ofNat_valid {n : Nat} (h : n.isValidChar) : (Char.ofNat n).toNat = n := by
  simp only [Char.ofNat, dif_pos h]
  rfl

theorem char_toLower_eq (c : Char) :
    c.toLower = if 65 ≤ c.toNat ∧ c.toNat ≤ 90 then Char.ofNat (c.toNat + 32) else c := by
  simp only [Char.toLower]

theorem char_toLower_fix (c : Char) : (c.toLower).toLower = c.toLower := by
  rw [char_toLower_eq c]
  by_cases h : 65 ≤ c.toNat ∧ c.toNat ≤ 90
  · rw [if_pos h, char_toLower_eq, toNat_ofNat_valid (Or.inl (by omega)), if_neg (by omega)]
  · rw [if_neg h, char_toLower_eq, if_neg h]

theorem mem_stripL {x : Char} {l : List Char} (h : x ∈ stripL l) : x ∈ l := by
  unfold stripL at h
  rw [List.mem_reverse] at h
  have h2 := (List.dropWhile_sublist _).subset h
  rw [List.mem_reverse] at h2
  exact (List.dropWhile_sublist _).subset h2

theorem mem_collapseWsAux {x : Char} (l : List Char) :
    ∀ b, x ∈ collapseWsAux b l → x = ' ' ∨ x ∈ l := by
  induction l with
  | nil => intro b h; simp [collapseWsAux] at h
  | cons c cs ih =>
    intro b h
    rw [collapseWsAux] at h
    split at h
    · split at h
      · rcases ih true h with h' | h'
        · exact Or.inl h'
        · exact Or.inr (List.mem_cons_of_mem _ h')
      · rcases List.mem_cons.mp h with rfl | h'
        · exact Or.inl rfl
        · rcases ih true h' with h'' | h''
          · exact Or.inl h''
          · exact Or.inr (List.mem_cons_of_mem _ h'')
    · rcases List.mem_cons.mp h with rfl | h'
      · exact Or.inr (List.mem_cons_self _ _)
      · rcases ih false h' with h'' | h''
        · exact Or.inl h''
        · exact Or.inr (List.mem_cons_of_mem _ h'')

theorem normalize_text_chars (s : String) :
    ∀ x ∈ (normalize_text s).toList, x.toLower = x ∧ (isWordChar x || isPySpace x) = true := by
  intro x hx
  have hx1 : x ∈ (collapseWsAux false (stripL (s.toList.map Char.toLower))).filter
      (fun c => isWordChar c || isPySpace c) := hx
  have hx2 := List.mem_filter.mp hx1
  refine ⟨?_, hx2.2⟩
  rcases mem_collapseWsAux _ _ hx2.1 with rfl | hx3
  · rfl
  · rcases List.mem_map.mp (mem_stripL hx3) with ⟨y, _, rfl⟩
    exact char_toLower_fix y

/-- Leading character is not whitespace (claim C5's canonical-form check). -/
def noLeadingWs (l : List Char) : Bool :=
  match l with
  | [] => true
  | c :: _ => !isPySpace c

/-- No two consecutive whitespace characters (claim C5's canonical-form check). -/
def noWsRun : List Char → Bool
  | c1 :: c2 :: rest => !(isPySpace c1 && isPySpace c2) && noWsRun (c2 :: rest)
  | _ => true

/-- The canonical form claim C5 asserts for normalize_text output: fully
lower-case, no leading or trailing whitespace, no whitespace runs, only
alphanumeric characters and whitespace. -/
def claimedCanonicalForm (s : String) : Bool :=
  s.toList.all (fun c => c.toLower == c) &&
  noLeadingWs s.toList && noLeadingWs s.toList.reverse &&
  noWsRun s.toList &&
  s.toList.all (fun c => c.isAlphanum || isPySpace c)

/-- Counterexample for C5: special characters are removed only after
whitespace collapsing, so "a_ - b -" normalizes to "a_  b ", which has an
internal double space, a trailing space, and a non-alphanumeric underscore. -/
theorem normalizer_canonical_counterexample :
    normalize_text "a_ - b -" = "a_  b " ∧
    claimedCanonicalForm (normalize_text "a_ - b -") = false := by decide

/-- C5 amended: every character of normalize_text's output is lower-case
fixed and is a word character (alphanumeric or underscore) or whitespace;
leading/trailing whitespace and whitespace runs can however survive, because
special characters are deleted after whitespace collapsing.  normalize_date
of the empty string is empty, and of a non-empty string is the first 10
characters of its trimmed form. -/
theorem normalizer_canonical_amended (s d : String) (hd : d ≠ "") :
    (∀ x ∈ (normalize_text s).toList, x.toLower = x ∧ (isWordChar x || isPySpace x) = true) ∧
    normalize_date "" = "" ∧
    normalize_date d = String.mk ((stripL d.toList).take 10) := by
  refine ⟨normalize_text_chars s, rfl, ?_⟩
  rw [normalize_date, if_neg hd]

/-- Witness for C5 amended: the amended canonical-form facts at concrete
inputs. -/
theorem normalizer_canonical_amended_witness :
    (∀ x ∈ (normalize_text "Jazz  Night").toList,
        x.toLower = x ∧ (isWordChar x || isPySpace x) = true) ∧
    normalize_date "" = "" ∧
    normalize_date "2025-03-01T18:00" = String.mk ((stripL "2025-03-01T18:00".toList).take 10) :=
  normalizer_canonical_amended "Jazz  Night" "2025-03-01T18:00" (by decide)

/-! Error isolation machinery for C8. -/

/-- Increment only the errors counter of a run state. -/
def bumpErrors (st : RunState) : RunState :=
  ⟨st.index, ⟨st.stats.new, st.stats.dup_exact, st.stats.dup_hash, st.stats.dup_fuzzy,
    st.stats.errors + 1⟩, st.new_rows⟩

theorem classifyDup_bump (s : RunStats) (reason : String) :
    classifyDup ⟨s.new, s.dup_exact, s.dup_hash, s.dup_fuzzy, s.errors + 1⟩ reason
      = ⟨(classifyDup s reason).new, (classifyDup s reason).dup_exact,
         (classifyDup s reason).dup_hash, (classifyDup s reason).dup_fuzzy,
         (classifyDup s reason).errors + 1⟩ := by
  unfold classifyDup
  split_ifs <;> rfl

theorem processEvent_bumpErrors (fuzz : String → String → Nat) (now : String)
    (st : RunState) (c : Option Event) :
    processEvent fuzz now (bumpErrors st) c = bumpErrors (processEvent fuzz now st c) := by
  cases c with
  | none => rfl
  | some e =>
    rcases h : is_duplicate fuzz e st.index.source_ids st.index.content_hashes
      st.index.events_list 85 with ⟨b, reason⟩
    cases b
    · rw [processEvent_unique fuzz now st e reason h,
        processEvent_unique fuzz now (bumpErrors st) e reason h]
      rfl
    · rw [processEvent_dup fuzz now st e reason h,
        processEvent_dup fuzz now (bumpErrors st) e reason h]
      show RunState.mk st.index (classifyDup ⟨st.stats.new, st.stats.dup_exact,
        st.stats.dup_hash, st.stats.dup_fuzzy, st.stats.errors + 1⟩ reason) st.new_rows = _
      rw [classifyDup_bump]
      rfl

theorem foldl_bumpErrors (fuzz : String → String → Nat) (now : String)
    (cs : List (Option Event)) :
    ∀ st, List.foldl (processEvent fuzz now) (bumpErrors st) cs
      = bumpErrors (List.foldl (processEvent fuzz now) st cs) := by
  induction cs with
  | nil => intro st; rfl
  | cons c cs ih =>
    intro st
    rw [List.foldl_cons, List.foldl_cons, processEvent_bumpErrors, ih]

/-- C8: the engine is total on malformed candidates — a candidate with all
fields missing decides exactly like one with explicit empty fields — and in
the orchestrator a candidate whose processing raises changes nothing but the
errors counter: the index, the accepted rows and the other four counters are
those of the same run without it, and the remaining candidates are still
processed. -/
theorem malformed_candidates_isolated (fuzz : String → String → Nat) (now : String) :
    (∀ (ids hashes : List String) (evs : List ExistingEvent) (T : Nat),
      is_duplicate fuzz (mkEvent none none none none) ids hashes evs T
        = is_duplicate fuzz (mkEvent (some "") (some "") (some "") (some "")) ids hashes evs T) ∧
    (∀ (xs ys : List (Option Event)) (idx : MatchIndex),
      deduplicate_and_store fuzz now (xs ++ none :: ys) idx
        = bumpErrors (deduplicate_and_store fuzz now (xs ++ ys) idx)) := by
  refine ⟨fun _ _ _ _ => rfl, fun xs ys idx => ?_⟩
  rw [deduplicate_and_store, deduplicate_and_store, List.foldl_append, List.foldl_append,
    List.foldl_cons]
  rw [show processEvent fuzz now
      (List.foldl (processEvent fuzz now) ⟨idx, ⟨0, 0, 0, 0, 0⟩, []⟩ xs) none
      = bumpErrors (List.foldl (processEvent fuzz now) ⟨idx, ⟨0, 0, 0, 0, 0⟩, []⟩ xs) from rfl]
  rw [foldl_bumpErrors]

/-- Counterexample for C9: the fold adds `str(source_id)` to the source-id
set unconditionally.  Accepting a candidate with a missing source_id adds the
empty string to a set that did not contain it. -/
theorem fold_source_id_counterexample :
    ¬ ("" ∈ emptyIndex.source_ids) ∧
    (deduplicate_and_store (fun _ _ => 0) "2025-02-02T00:00:00"
        [some (mkEvent (some "Expo") (some "2025-02-02") (some "Goa") none)]
        emptyIndex).stats.new = 1 ∧
    ("" ∈ (deduplicate_and_store (fun _ _ => 0) "2025-02-02T00:00:00"
        [some (mkEvent (some "Expo") (some "2025-02-02") (some "Goa") none)]
        emptyIndex).index.source_ids) := by decide

/-- C9 amended: when the orchestrator accepts a Unique candidate, it adds the
candidate's stringified source_id to the source-id set unconditionally — also
when it is empty — so the set can come to contain the empty string. -/
theorem fold_source_id_amended (fuzz : String → String → Nat) (now : String)
    (e : Event) (idx : MatchIndex)
    (h : is_duplicate fuzz e idx.source_ids idx.content_hashes idx.events_list 85
          = (false, "")) :
    (deduplicate_and_store fuzz now [some e] idx).index.source_ids
      = idx.source_ids.insert (e.source_id.getD "") := by
  rw [deduplicate_and_store, List.foldl_cons, List.foldl_nil,
    processEvent_unique fuzz now ⟨idx, ⟨0, 0, 0, 0, 0⟩, []⟩ e "" h]

/-- Witness for C9 amended: accepting a candidate with an explicitly empty
source_id inserts the empty string. -/
theorem fold_source_id_amended_witness :
    (deduplicate_and_store (fun _ _ => 0) "2025-02-02T00:00:00"
        [some (mkEvent (some "Expo") (some "2025-02-02") (some "Goa") (some ""))]
        emptyIndex).index.source_ids = [""] :=
  fold_source_id_amended (fun _ _ => 0) "2025-02-02T00:00:00"
    (mkEvent (some "Expo") (some "2025-02-02") (some "Goa") (some "")) emptyIndex (by decide)

/-! Counter bookkeeping for C10. -/

/-- Sum of the five run counters. -/
def statsTotal (s : RunStats) : Nat :=
  s.new + s.dup_exact + s.dup_hash + s.dup_fuzzy + s.errors

theorem processEvent_statsTotal (fuzz : String → String → Nat) (now : String)
    (st : RunState) (c : Option Event) :
    statsTotal (processEvent fuzz now st c).stats = statsTotal st.stats + 1 := by
  cases c with
  | none => simp [processEvent, statsTotal]; omega
  | some e =>
    rcases h : is_duplicate fuzz e st.index.source_ids st.index.content_hashes
      st.index.events_list 85 with ⟨b, reason⟩
    cases b
    · rw [processEvent_unique fuzz now st e reason h]
      simp [statsTotal]; omega
    · rw [processEvent_dup fuzz now st e reason h]
      show statsTotal (classifyDup st.stats reason) = _
      unfold classifyDup
      split_ifs <;> simp [statsTotal] <;> omega

theorem processEvent_rows_balance (fuzz : String → String → Nat) (now : String)
    (st : RunState) (c : Option Event) :
    (processEvent fuzz now st c).new_rows.length + st.stats.new
      = st.new_rows.length + (processEvent fuzz now st c).stats.new := by
  cases c with
  | none => rfl
  | some e =>
    rcases h : is_duplicate fuzz e st.index.source_ids st.index.content_hashes
      st.index.events_list 85 with ⟨b, reason⟩
    cases b
    · rw [processEvent_unique fuzz now st e reason h]
      simp; omega
    · rw [processEvent_dup fuzz now st e reason h]
      show st.new_rows.length + st.stats.new = st.new_rows.length + (classifyDup st.stats reason).new
      unfold classifyDup
      split_ifs <;> rfl

theorem foldl_statsTotal (fuzz : String → String → Nat) (now : String)
    (cs : List (Option Event)) :
    ∀ st, statsTotal (List.foldl (processEvent fuzz now) st cs).stats
      = statsTotal st.stats + cs.length := by
  induction cs with
  | nil => intro st; rfl
  | cons c cs ih =>
    intro st
    rw [List.foldl_cons, ih (processEvent fuzz now st c), processEvent_statsTotal]
    simp; omega

theorem foldl_rows_balance (fuzz : String → String → Nat) (now : String)
    (cs : List (Option Event)) :
    ∀ st, (List.foldl (processEvent fuzz now) st cs).new_rows.length + st.stats.new
      = st.new_rows.length + (List.foldl (processEvent fuzz now) st cs).stats.new := by
  induction cs with
  | nil => intro st; rfl
  | cons c cs ih =>
    intro st
    rw [List.foldl_cons]
    have h1 := ih (processEvent fuzz now st c)
    have h2 := processEvent_rows_balance fuzz now st c
    omega

/-- C10: after a run, the five counters partition the batch — their sum is
the number of input candidates — and the number of rows handed to the bulk
store write equals the new counter. -/
theorem counter_partition (fuzz : String → String → Nat) (now : String)
    (cands : List (Option Event)) (idx : MatchIndex) :
    (deduplicate_and_store fuzz now cands idx).stats.new
      + (deduplicate_and_store fuzz now cands idx).stats.dup_exact
      + (deduplicate_and_store fuzz now cands idx).stats.dup_hash
      + (deduplicate_and_store fuzz now cands idx).stats.dup_fuzzy
      + (deduplicate_and_store fuzz now cands idx).stats.errors = cands.length ∧
    (deduplicate_and_store fuzz now cands idx).new_rows.length
      = (deduplicate_and_store fuzz now cands idx).stats.new := by
  have h1 := foldl_statsTotal fuzz now cands ⟨idx, ⟨0, 0, 0, 0, 0⟩, []⟩
  have h2 := foldl_rows_balance fuzz now cands ⟨idx, ⟨0, 0, 0, 0, 0⟩, []⟩
  unfold statsTotal at h1
  simp at h1 h2
  rw [deduplicate_and_store]
  omega

end EventScraper
